import Mathlib

/-!
Verification development for the youtube-shorts-automation repository.

The embedding models the queue / scheduling logic of
`automation_scheduler.py` (class YouTubeShortsAutomation) and the job
store / API endpoints of `api_mode/api_database.py` (class JobDatabase)
and `api_mode/api_server.py` (JobResource, BackgroundJobProcessor).

Conventions of the embedding:
- strings are lists of Unicode code points (`Str := List Nat`);
- datetimes are integers (minutes in the scheduling model, seconds in
  the retry model, matching the unit each piece of Python code actually
  compares in);
- Python dict records become structures; the `status` strings become
  enumerations;
- fallible operations return `Option` or a result enumeration.
-/

/-- Strings as lists of Unicode code points. -/
abbrev Str := List Nat

/-! ## normalize_like_api (automation_scheduler.py lines 79-94)

`title.translate(str.maketrans(<empty>, <empty>, string.punctuation)).lower().strip()`:
remove every ASCII punctuation character, lower-case, then strip
whitespace from both ends.  `string.punctuation` is exactly the ASCII
ranges 33-47, 58-64, 91-96 and 123-126. -/

/-- Membership in Python's `string.punctuation` (ASCII code ranges). -/
def isPunct (n : Nat) : Bool :=
  decide ((33 ≤ n ∧ n ≤ 47) ∨ (58 ≤ n ∧ n ≤ 64) ∨ (91 ≤ n ∧ n ≤ 96) ∨ (123 ≤ n ∧ n ≤ 126))

/-- ASCII lower-casing of one code point, as `str.lower` acts on ASCII. -/
def toLowerN (n : Nat) : Nat :=
  if 65 ≤ n ∧ n ≤ 90 then n + 32 else n

/-- ASCII upper-casing of one code point (used to state case-insensitivity). -/
def toUpperN (n : Nat) : Nat :=
  if 97 ≤ n ∧ n ≤ 122 then n - 32 else n

/-- Whitespace in the sense of Python's `str.strip`. -/
def isSpaceN (n : Nat) : Bool :=
  decide (n = 32 ∨ n = 9 ∨ n = 10 ∨ n = 13 ∨ n = 11 ∨ n = 12)

/-- Drop leading whitespace. -/
def ltrim (s : Str) : Str := s.dropWhile isSpaceN

/-- Drop trailing whitespace. -/
def rtrim (s : Str) : Str := (s.reverse.dropWhile isSpaceN).reverse

/-- Python's `str.strip`: drop whitespace at both ends. -/
def strip (s : Str) : Str := rtrim (ltrim s)

/-- Model of `YouTubeShortsAutomation.normalize_like_api`: remove all
punctuation, lower-case, strip surrounding whitespace. -/
def normalize_like_api (s : Str) : Str :=
  strip ((s.filter (fun n => !(isPunct n))).map toLowerN)

/-! ## Queue items (automation_scheduler.py)

A queue item is the dict built in `add_videos_to_queue` lines 245-256,
mutated by `upload_pending_videos` and `smart_retry_failed_uploads`.
The path-to-title cleaning (basename, drop extension, underscores to
spaces) is pure string munging that no claim depends on, so the model
takes the cleaned title as the input and lets `videoPath` coincide with
it; the fields `description`, `tags`, `script_info` and the various
bookkeeping timestamps are likewise not load-bearing and are omitted
from the scheduling record (they appear in the persistence model
below). -/

/-- Status strings a queue item can carry. -/
inductive QStatus
  | pending
  | uploadedPrivate
  | scheduled
  | scheduleFailed
  | published
  | failed
  deriving DecidableEq, Repr

/-- One entry of `self.upload_queue`. -/
structure QueueItem where
  title : Str
  videoPath : Str
  sched : Option Int
  status : QStatus
  uploadAttempts : Nat
  lastAttemptTime : Option Int
  error : Option Str
  videoId : Option Str
  deriving DecidableEq, Repr

/-! ## Scheduling (add_videos_to_queue, get_last_scheduled_time) -/

/-- LAYER 1 cleanup of `add_videos_to_queue` (lines 166-198): keep every
non-pending item; keep a pending item only when its scheduled time is
in the future (a pending item whose time is absent or unparsable is
dropped). -/
def cleanQueue (now : Int) (q : List QueueItem) : List QueueItem :=
  q.filter (fun v =>
    match v.status, v.sched with
    | .pending, some t => decide (t > now)
    | .pending, none => false
    | _, _ => true)

/-- Future scheduled times of items whose status is scheduled or pending
(the list built in `get_last_scheduled_time`, lines 270-281). -/
def futureSchedTimes (now : Int) (q : List QueueItem) : List Int :=
  q.filterMap (fun v =>
    match v.sched with
    | some t => if (v.status = .scheduled ∨ v.status = .pending) ∧ t > now then some t else none
    | none => none)

/-- Left fold computing the maximum of a list of times, seeded with an
accumulator (model of Python's `max(scheduled_times)`). -/
def listMax : List Int → Int → Int
  | [], acc => acc
  | x :: xs, acc => listMax xs (max acc x)

/-- Model of `YouTubeShortsAutomation.get_last_scheduled_time` (lines
267-287): the latest future scheduled time of a pending/scheduled item,
or the current time when there is none. -/
def get_last_scheduled_time (now : Int) (q : List QueueItem) : Int :=
  match futureSchedTimes now q with
  | [] => now
  | x :: xs => listMax xs x

/-- Normalized titles of the items of a queue (the set comprehension of
line 205, kept as a list). -/
def existingTitles (q : List QueueItem) : List Str :=
  q.map (fun v => normalize_like_api v.title)

/-- The fresh pending item built at lines 245-256 for one video. -/
def mkPendingItem (title : Str) (slot : Int) : QueueItem :=
  { title := title
    videoPath := title
    sched := some slot
    status := .pending
    uploadAttempts := 0
    lastAttemptTime := none
    error := none
    videoId := none }

/-- The enumerate loop of `add_videos_to_queue` lines 219-258: walk the
input titles with their index; a title whose normalization is already
known is skipped (the index still advances, as `enumerate` does); an
accepted title is appended with slot `last + interval * (i + 1)` and its
normalization joins the known set. -/
def addLoop (last interval : Int) : Nat → List Str → List Str → List QueueItem
  | _, _, [] => []
  | i, existing, t :: ts =>
    let nt := normalize_like_api t
    if nt ∈ existing then
      addLoop last interval (i + 1) existing ts
    else
      mkPendingItem t (last + interval * ((i : Int) + 1)) :: addLoop last interval (i + 1) (nt :: existing) ts

/-- Model of `YouTubeShortsAutomation.add_videos_to_queue` (lines
162-265): clean the queue, collect existing normalized titles, compute
the anchor (custom start time minus one interval when given, otherwise
the last scheduled time), then append the accepted new items. -/
def add_videos_to_queue (now : Int) (custom : Option Int) (interval : Int)
    (titles : List Str) (q : List QueueItem) : List QueueItem :=
  let cq := cleanQueue now q
  let last := match custom with
    | some a => a - interval
    | none => get_last_scheduled_time now cq
  cq ++ addLoop last interval 0 (existingTitles cq) titles

/-- The slot computation of `add_videos_to_queue` in isolation (lines
207-217 and 234): anchor handling plus `last + interval * (i + 1)` for
each of the N inputs. -/
def allocateSlots (now : Int) (custom : Option Int) (interval : Int) (n : Nat)
    (q : List QueueItem) : List Int :=
  let last := match custom with
    | some a => a - interval
    | none => get_last_scheduled_time now q
  (List.range n).map (fun i => last + interval * ((i : Int) + 1))

/-- Duplicate test actually performed by `add_videos_to_queue` (lines
205 and 228-231) for a candidate against the post-cleanup snapshot. -/
def isDuplicateCode (now : Int) (cand : Str) (q : List QueueItem) : Bool :=
  decide (normalize_like_api cand ∈ existingTitles (cleanQueue now q))

/-- Duplicate test following the specification's words: a candidate is a
duplicate iff its normalized title matches an item of the snapshot whose
status is not a long-terminal failure.  Written from the spec, to be
compared with `isDuplicateCode`. -/
def specIsDuplicate (now : Int) (cand : Str) (q : List QueueItem) : Bool :=
  decide (normalize_like_api cand ∈
    existingTitles ((cleanQueue now q).filter (fun v => v.status ≠ .failed)))

/-! ## API-mode upload slots (api_server.py, BackgroundJobProcessor._process_uploads)

Lines 567-594: the i-th generated video of a job is scheduled at
`scheduled_datetime + interval * i`, anchored at the job's requested
publish time itself. -/

/-- Publish slots assigned by `_process_uploads` to n videos of one job. -/
def processUploadsSlots (anchor interval : Int) (n : Nat) : List Int :=
  (List.range n).map (fun i => anchor + interval * (i : Int))

/-! ## Retry manager (smart_retry_failed_uploads, lines 1037-1078,
and the retry_config of __init__, lines 68-73)

Times are in seconds here because the source compares
`time_since_attempt.total_seconds() < delay_minutes * 60`. -/

/-- `retry_config['retry_delay_minutes']`. -/
def retryDelayMinutes : List Int := [5, 15, 30, 60, 120]

/-- `retry_config['max_retries']`. -/
def retryMaxRetries : Nat := 5

/-- The delay (in minutes) looked up at line 1053:
`retry_delay_minutes[min(attempts, len(retry_delay_minutes) - 1)]`. -/
def delayFor (attempts : Nat) : Int :=
  retryDelayMinutes.getD (min attempts (retryDelayMinutes.length - 1)) 0

/-- Effect of one pass of `smart_retry_failed_uploads` on a single item:
failed items with fewer than the maximum attempts become pending again
once the delay has elapsed since the last attempt (immediately when no
last attempt is recorded); everything else is untouched. -/
def retryStep (now : Int) (v : QueueItem) : QueueItem :=
  if v.status = .failed then
    if v.uploadAttempts < retryMaxRetries then
      match v.lastAttemptTime with
      | some t =>
        if now - t < delayFor v.uploadAttempts * 60 then v
        else { v with status := .pending, lastAttemptTime := some now }
      | none => { v with status := .pending, lastAttemptTime := some now }
    else v
  else v

/-- Model of `YouTubeShortsAutomation.smart_retry_failed_uploads`. -/
def smart_retry_failed_uploads (now : Int) (q : List QueueItem) : List QueueItem :=
  q.map (retryStep now)

/-! ## Upload pass (upload_pending_videos, lines 457-569)

The external collaborators (filesystem, YouTube uploader) are oracles
packaged in an environment; the webhook and file-moving side effects do
not touch queue items and are not part of the item-level model. -/

/-- Oracles used by one upload pass. -/
structure UploadEnv where
  fileExists : Str → Bool
  upload : QueueItem → Option Str
  scheduleVideo : Str → Int → Bool
  maxRetries : Nat

/-- Code points of the string "File not found" (line 480). -/
def fileNotFoundError : Str :=
  [70, 105, 108, 101, 32, 110, 111, 116, 32, 102, 111, 117, 110, 100]

/-- Code points of the string "Max retries exceeded" (line 548). -/
def maxRetriesError : Str :=
  [77, 97, 120, 32, 114, 101, 116, 114, 105, 101, 115, 32, 101, 120, 99, 101, 101, 100, 101, 100]

/-- Processing of one pending item inside the loop of
`upload_pending_videos` (lines 473-567): a missing file marks the item
failed with error "File not found" and moves on; otherwise the item is
uploaded, then scheduled (status scheduled / schedule_failed), and an
upload failure increments the attempt counter, marking the item failed
once the maximum is reached. -/
def uploadStep (env : UploadEnv) (v : QueueItem) : QueueItem :=
  if env.fileExists v.videoPath = false then
    { v with status := .failed, error := some fileNotFoundError }
  else
    match env.upload v with
    | some vid =>
      let v1 := { v with status := .uploadedPrivate, videoId := some vid }
      match v.sched with
      | some st =>
        if env.scheduleVideo vid st then { v1 with status := .scheduled }
        else { v1 with status := .scheduleFailed }
      | none => { v1 with status := .scheduleFailed }
    | none =>
      let v2 := { v with uploadAttempts := v.uploadAttempts + 1 }
      if env.maxRetries ≤ v2.uploadAttempts then
        { v2 with status := .failed, error := some maxRetriesError }
      else v2

/-- Model of `YouTubeShortsAutomation.upload_pending_videos`: every
pending item goes through `uploadStep`; items in any other status are
untouched. -/
def upload_pending_videos (env : UploadEnv) (q : List QueueItem) : List QueueItem :=
  q.map (fun v => if v.status = .pending then uploadStep env v else v)

/-! ## Queue persistence (save_upload_queue lines 154-160,
load_upload_queue lines 144-152)

`json.dump(self.upload_queue, f, indent=2, default=str)` followed by
`json.load(f)` is the identity on JSON-representable values, while a
datetime leaf (not JSON-representable) is rendered through `default=str`
and comes back as that string.  Items are modelled as ordered key-value
records over a flat value type covering the field shapes actually built
at lines 245-256 (strings, ints, datetimes, lists of strings; the nested
`script_info` dict is flattened into such fields). -/

/-- Field values of a persisted queue item. -/
inductive FVal
  | fstr (s : Str)
  | fint (n : Int)
  | fdt (t : Int)
  | flistStr (l : List Str)
  deriving DecidableEq, Repr

/-- String rendering of a datetime, standing for Python's `str(datetime)`
(decimal rendering of the timestamp in this model). -/
def renderDt (t : Int) : Str :=
  if t < 0 then 45 :: (Nat.toDigits 10 t.natAbs).map Char.toNat
  else (Nat.toDigits 10 t.natAbs).map Char.toNat

/-- Effect of `json.dump(..., default=str)` on one value: datetimes are
rendered as strings, JSON-representable values are kept. -/
def dumpVal : FVal → FVal
  | .fdt t => .fstr (renderDt t)
  | v => v

/-- A persisted queue item: ordered field list. -/
abbrev JsonItem := List (Str × FVal)

/-- Dump of one item. -/
def dumpItem (it : JsonItem) : JsonItem :=
  it.map (fun kv => (kv.1, dumpVal kv.2))

/-- Composition of `save_upload_queue` and `load_upload_queue`
(simulated restart): JSON serialization followed by parsing. -/
def saveThenLoad (q : List JsonItem) : List JsonItem :=
  q.map dumpItem

/-- A value is JSON-representable as such (no datetime). -/
def isJsonVal : FVal → Bool
  | .fdt _ => false
  | _ => true

/-! ## Job store (api_mode/api_database.py, class JobDatabase) -/

/-- Status strings of a job row. -/
inductive JStatus
  | queued
  | processing
  | completed
  | failed
  | cancelled
  deriving DecidableEq, Repr

/-- The terminal-status list of `update_job_status` line 195 (the same
list guards cancellation in api_server.py line 293). -/
def isTerminal : JStatus → Bool
  | .completed => true
  | .failed => true
  | .cancelled => true
  | _ => false

/-- One row of the jobs table (the columns the claims touch). -/
structure Job where
  jobId : Str
  apiKey : Str
  status : JStatus
  progress : Int
  message : Str
  error : Option Str
  videosGenerated : Int
  videosUploaded : Int
  completedAt : Option Int
  createdAt : Int
  deriving DecidableEq, Repr

/-- Arguments of `JobDatabase.update_job_status` (lines 145-155): status,
progress and message are always written; the remaining fields are
written only when supplied. -/
structure UpdateArgs where
  status : JStatus
  progress : Int
  message : Str
  error : Option Str
  videosGenerated : Option Int
  videosUploaded : Option Int
  completedAt : Option Int
  deriving Repr

/-- The SET clause built at lines 177-198 applied to one row: mandatory
fields overwritten, optional fields overwritten when supplied, and
`completed_at` auto-stamped with the current time when the new status is
terminal and no explicit timestamp was supplied. -/
def applyUpdate (now : Int) (u : UpdateArgs) (j : Job) : Job :=
  { j with
    status := u.status
    progress := u.progress
    message := u.message
    error := match u.error with | some e => some e | none => j.error
    videosGenerated := match u.videosGenerated with | some n => n | none => j.videosGenerated
    videosUploaded := match u.videosUploaded with | some n => n | none => j.videosUploaded
    completedAt := match u.completedAt with
      | some t => some t
      | none => if isTerminal u.status then some now else j.completedAt }

/-- Model of `JobDatabase.update_job_status` (lines 145-217): the UPDATE
touches the rows whose job_id matches (there is no guard on the current
status, and an id matching no row still commits) and the method returns
True. -/
def update_job_status (now : Int) (db : List Job) (jobId : Str) (u : UpdateArgs) :
    Bool × List Job :=
  (true, db.map (fun j => if j.jobId = jobId then applyUpdate now u j else j))

/-- Model of `JobDatabase.get_job` (lines 219-244): the first row with
the given id, or an explicit not-found (`none`). -/
def get_job (db : List Job) (jobId : Str) : Option Job :=
  db.find? (fun j => decide (j.jobId = jobId))

/-! ## Job cancellation endpoint (api_server.py, JobResource.delete,
lines 272-320) -/

/-- Outcome of the DELETE endpoint (404 / 401 / 400 / 200). -/
inductive CancelResult
  | notFound
  | unauthorized
  | cannotCancel (s : JStatus)
  | success
  deriving DecidableEq, Repr

/-- Code points of "Job cancelled by user" (line 303). -/
def cancelledByUserMsg : Str :=
  [74, 111, 98, 32, 99, 97, 110, 99, 101, 108, 108, 101, 100, 32, 98, 121, 32, 117, 115, 101, 114]

/-- Model of `JobResource.delete`: 404 on unknown id, 401 on owner
mismatch, 400 when the job is already terminal, otherwise the job is
updated to cancelled via `update_job_status`. -/
def cancel_job (now : Int) (db : List Job) (jobId : Str) (apiKey : Str) :
    CancelResult × List Job :=
  match get_job db jobId with
  | none => (.notFound, db)
  | some job =>
    if job.apiKey ≠ apiKey then (.unauthorized, db)
    else if isTerminal job.status then (.cannotCancel job.status, db)
    else
      (.success,
        (update_job_status now db jobId
          { status := .cancelled
            progress := 0
            message := cancelledByUserMsg
            error := none
            videosGenerated := none
            videosUploaded := none
            completedAt := none }).2)

/-! ## Example values used by counterexamples and witnesses -/

/-- Conversion from a Lean string literal to the code-point model. -/
def strCodes (s : String) : Str := s.toList.map Char.toNat

/-- A queue whose only item is a permanently failed upload titled "F". -/
def qFailedOnly : List QueueItem :=
  [{ title := strCodes "F"
     videoPath := strCodes "F"
     sched := none
     status := .failed
     uploadAttempts := 5
     lastAttemptTime := none
     error := some maxRetriesError
     videoId := none }]

/-- A job row already in the terminal status completed. -/
def exCompletedJob : Job :=
  { jobId := strCodes "job_1"
    apiKey := strCodes "key"
    status := .completed
    progress := 100
    message := strCodes "done"
    error := none
    videosGenerated := 2
    videosUploaded := 2
    completedAt := some 50
    createdAt := 0 }

/-- An update request carrying the non-terminal status processing. -/
def exProcessingUpdate : UpdateArgs :=
  { status := .processing
    progress := 10
    message := strCodes "restarted"
    error := none
    videosGenerated := none
    videosUploaded := none
    completedAt := none }

/-- A persisted queue item shaped like the dict of add_videos_to_queue
lines 245-256, with datetime values in added_at and
scheduled_publish_time. -/
def exDtItem : JsonItem :=
  [(strCodes "video_path", .fstr (strCodes "downloads/A.mp4")),
   (strCodes "title", .fstr (strCodes "A")),
   (strCodes "added_at", .fdt 1000),
   (strCodes "scheduled_publish_time", .fdt 1150),
   (strCodes "upload_attempts", .fint 0),
   (strCodes "status", .fstr (strCodes "pending")),
   (strCodes "video_type", .fstr (strCodes "short"))]

/-- An update request entering the terminal status failed without an
explicit completion timestamp. -/
def exFailUpdate : UpdateArgs :=
  { status := .failed
    progress := 0
    message := strCodes "boom"
    error := some (strCodes "boom")
    videosGenerated := none
    videosUploaded := none
    completedAt := none }

/-- A failed queue item with two prior attempts, last attempted at
second 0. -/
def exFailedItem : QueueItem :=
  { title := strCodes "A"
    videoPath := strCodes "A"
    sched := some 150
    status := .failed
    uploadAttempts := 2
    lastAttemptTime := some 0
    error := some maxRetriesError
    videoId := none }

/-- A persisted queue item whose fields are all JSON-representable. -/
def exPrimItem : JsonItem :=
  [(strCodes "title", .fstr (strCodes "A")),
   (strCodes "upload_attempts", .fint 0),
   (strCodes "status", .fstr (strCodes "pending"))]

/-- A job row still in the queued status. -/
def exQueuedJob : Job :=
  { jobId := strCodes "job_2"
    apiKey := strCodes "key"
    status := .queued
    progress := 0
    message := strCodes "Job queued for processing"
    error := none
    videosGenerated := 0
    videosUploaded := 0
    completedAt := none
    createdAt := 0 }

/-- An upload environment in which no video file exists on disk. -/
def exMissingEnv : UploadEnv :=
  { fileExists := fun _ => false
    upload := fun _ => none
    scheduleVideo := fun _ _ => false
    maxRetries := 3 }

/-- A pending queue item with one prior attempt. -/
def exPendingItem : QueueItem :=
  { title := strCodes "A"
    videoPath := strCodes "downloads/A.mp4"
    sched := some 150
    status := .pending
    uploadAttempts := 1
    lastAttemptTime := none
    error := none
    videoId := none }

/-! ## Helper lemmas -/

theorem listMax_mem (l : List Int) (acc : Int) : listMax l acc = acc ∨ listMax l acc ∈ l := by
  induction l generalizing acc with
  | nil => left; rfl
  | cons x xs ih =>
    rcases ih (max acc x) with h | h
    · rw [listMax, h]
      rcases max_choice acc x with h2 | h2
      · left; exact h2
      · right; rw [h2]; exact List.mem_cons_self _ _
    · right; exact List.mem_cons_of_mem _ h

theorem acc_le_listMax (l : List Int) (acc : Int) : acc ≤ listMax l acc := by
  induction l generalizing acc with
  | nil => exact le_refl acc
  | cons x xs ih => exact le_trans (le_max_left acc x) (ih (max acc x))

theorem le_listMax_of_mem (l : List Int) (acc : Int) (b : Int) (hb : b ∈ l) :
    b ≤ listMax l acc := by
  induction l generalizing acc with
  | nil => exact absurd hb (List.not_mem_nil b)
  | cons x xs ih =>
    rcases List.mem_cons.mp hb with h | h
    · exact le_trans (h ▸ le_max_right acc x) (acc_le_listMax xs (max acc x))
    · exact ih (max acc x) h

theorem rtrim_front (m : Str) : rtrim m <+: m := by
  have h : (m.reverse.dropWhile isSpaceN).reverse <+: m.reverse.reverse :=
    List.reverse_prefix.mpr (List.dropWhile_suffix _)
  rwa [List.reverse_reverse] at h

theorem dropWhile_self_idem (p : Nat → Bool) (l : List Nat) :
    (l.dropWhile p).dropWhile p = l.dropWhile p := by
  induction l with
  | nil => rfl
  | cons a l ih =>
    by_cases h : p a
    · simp only [List.dropWhile_cons, h, if_true, ih]
    · simp [List.dropWhile_cons, h]

theorem dropWhile_eq_self_head (p : Nat → Bool) (a : Nat) (l : List Nat)
    (h : (a :: l).dropWhile p = a :: l) : p a = false := by
  by_contra hpa
  rw [Bool.not_eq_false] at hpa
  rw [List.dropWhile_cons, if_pos hpa] at h
  have hlen : (l.dropWhile p).length ≤ l.length := (List.dropWhile_suffix p).length_le
  rw [h] at hlen
  simp at hlen

theorem ltrim_rtrim (m : Str) (hm : ltrim m = m) : ltrim (rtrim m) = rtrim m := by
  cases hr : rtrim m with
  | nil => rfl
  | cons a t =>
    have hpre : rtrim m <+: m := rtrim_front m
    rw [hr] at hpre
    obtain ⟨rest, hrest⟩ := hpre
    have ha : isSpaceN a = false := by
      apply dropWhile_eq_self_head isSpaceN a (t ++ rest)
      rw [← List.cons_append, hrest]
      exact hm
    show (a :: t).dropWhile isSpaceN = a :: t
    rw [List.dropWhile_cons, if_neg (by simp [ha])]

theorem strip_idem (l : Str) : strip (strip l) = strip l := by
  show rtrim (ltrim (rtrim (ltrim l))) = rtrim (ltrim l)
  rw [ltrim_rtrim (ltrim l) (dropWhile_self_idem isSpaceN l)]
  show ((rtrim (ltrim l)).reverse.dropWhile isSpaceN).reverse = rtrim (ltrim l)
  rw [show rtrim (ltrim l) = ((ltrim l).reverse.dropWhile isSpaceN).reverse from rfl]
  rw [List.reverse_reverse, dropWhile_self_idem]

theorem mem_strip (l : Str) (x : Nat) (hx : x ∈ strip l) : x ∈ l := by
  have h1 : x ∈ ltrim l := (rtrim_front (ltrim l)).subset hx
  exact (List.dropWhile_suffix isSpaceN).subset h1

theorem toLowerN_toLowerN (n : Nat) : toLowerN (toLowerN n) = toLowerN n := by
  by_cases h : 65 ≤ n ∧ n ≤ 90
  · have h1 : toLowerN n = n + 32 := by rw [toLowerN, if_pos h]
    rw [h1, toLowerN, if_neg (by omega)]
  · have h1 : toLowerN n = n := by rw [toLowerN, if_neg h]
    rw [h1]
    exact h1

theorem isPunct_toLowerN (n : Nat) : isPunct (toLowerN n) = isPunct n := by
  by_cases h : 65 ≤ n ∧ n ≤ 90
  · have h1 : toLowerN n = n + 32 := by rw [toLowerN, if_pos h]
    rw [h1, isPunct, isPunct, decide_eq_decide]
    omega
  · have h1 : toLowerN n = n := by rw [toLowerN, if_neg h]
    rw [h1]

theorem toLowerN_toUpperN (n : Nat) : toLowerN (toUpperN n) = toLowerN n := by
  by_cases h : 97 ≤ n ∧ n ≤ 122
  · have h1 : toUpperN n = n - 32 := by rw [toUpperN, if_pos h]
    rw [h1, toLowerN, toLowerN, if_pos (by omega), if_neg (by omega)]
    omega
  · have h1 : toUpperN n = n := by rw [toUpperN, if_neg h]
    rw [h1]

theorem isPunct_toUpperN (n : Nat) : isPunct (toUpperN n) = isPunct n := by
  by_cases h : 97 ≤ n ∧ n ≤ 122
  · have h1 : toUpperN n = n - 32 := by rw [toUpperN, if_pos h]
    rw [h1, isPunct, isPunct, decide_eq_decide]
    omega
  · have h1 : toUpperN n = n := by rw [toUpperN, if_neg h]
    rw [h1]

theorem mem_normalized_chars (l : Str) (x : Nat)
    (hx : x ∈ (l.filter (fun n => !(isPunct n))).map toLowerN) :
    isPunct x = false ∧ toLowerN x = x := by
  obtain ⟨y, hy, hxy⟩ := List.mem_map.mp hx
  have hyP : isPunct y = false := by
    have := (List.mem_filter.mp hy).2
    simpa using this
  constructor
  · rw [← hxy, isPunct_toLowerN, hyP]
  · rw [← hxy, toLowerN_toLowerN]

theorem normalize_like_api_idem (l : Str) :
    normalize_like_api (normalize_like_api l) = normalize_like_api l := by
  unfold normalize_like_api
  set t := (l.filter (fun n => !(isPunct n))).map toLowerN with ht
  have h1 : (strip t).filter (fun n => !(isPunct n)) = strip t := by
    apply List.filter_eq_self.mpr
    intro x hx
    have := mem_normalized_chars l x (mem_strip t x hx)
    simp [this.1]
  have h2 : (strip t).map toLowerN = strip t := by
    have hc := List.map_congr_left (fun x hx =>
      (mem_normalized_chars l x (mem_strip t x hx)).2)
    rw [hc]
    exact List.map_id' (strip t)
  rw [h1, h2, strip_idem]

theorem normalize_like_api_map_toUpperN (l : Str) :
    normalize_like_api (l.map toUpperN) = normalize_like_api l := by
  unfold normalize_like_api
  rw [List.filter_map]
  have hfil : l.filter ((fun n => !(isPunct n)) ∘ toUpperN) = l.filter (fun n => !(isPunct n)) := by
    apply List.filter_congr
    intro x _
    simp [Function.comp, isPunct_toUpperN]
  rw [hfil, List.map_map]
  congr 1
  apply List.map_congr_left
  intro x _
  exact toLowerN_toUpperN x

theorem normalize_like_api_map_toLowerN (l : Str) :
    normalize_like_api (l.map toLowerN) = normalize_like_api l := by
  unfold normalize_like_api
  rw [List.filter_map]
  have hfil : l.filter ((fun n => !(isPunct n)) ∘ toLowerN) = l.filter (fun n => !(isPunct n)) := by
    apply List.filter_congr
    intro x _
    simp [Function.comp, isPunct_toLowerN]
  rw [hfil, List.map_map]
  congr 1
  apply List.map_congr_left
  intro x _
  exact toLowerN_toLowerN x

theorem futureSchedTimes_mem_iff (now t : Int) (q : List QueueItem) :
    t ∈ futureSchedTimes now q ↔
      ∃ v ∈ q, v.sched = some t ∧ (v.status = .scheduled ∨ v.status = .pending) ∧ t > now := by
  unfold futureSchedTimes
  rw [List.mem_filterMap]
  constructor
  · rintro ⟨v, hv, hf⟩
    refine ⟨v, hv, ?_⟩
    cases hs : v.sched with
    | none =>
      simp only [hs] at hf
      exact Option.noConfusion hf
    | some t2 =>
      simp only [hs] at hf
      by_cases hp : (v.status = .scheduled ∨ v.status = .pending) ∧ t2 > now
      · rw [if_pos hp] at hf
        have ht2 : t2 = t := Option.some.inj hf
        subst ht2
        exact ⟨rfl, hp.1, hp.2⟩
      · rw [if_neg hp] at hf; cases hf
  · rintro ⟨v, hv, hsched, hstat, hfut⟩
    refine ⟨v, hv, ?_⟩
    simp only [hsched]
    rw [if_pos ⟨hstat, hfut⟩]

/-- C6: normalization is idempotent, case-insensitive (upper- or
lower-casing the input does not change the result) and
punctuation-insensitive, and on the concrete pair of the specification
the titles "ABC, Inc." and "abc inc" normalize identically. -/
theorem claim_C6 (s : Str) :
    normalize_like_api (normalize_like_api s) = normalize_like_api s ∧
    normalize_like_api (s.map toUpperN) = normalize_like_api s ∧
    normalize_like_api (s.map toLowerN) = normalize_like_api s ∧
    normalize_like_api (s.filter (fun n => !(isPunct n))) = normalize_like_api s ∧
    normalize_like_api (strCodes "ABC, Inc.") = normalize_like_api (strCodes "abc inc") := by
  refine ⟨normalize_like_api_idem s, normalize_like_api_map_toUpperN s,
    normalize_like_api_map_toLowerN s, ?_, by decide⟩
  unfold normalize_like_api
  rw [List.filter_filter]
  have hpred : ∀ a ∈ s, (!(isPunct a) && !(isPunct a)) = !(isPunct a) := fun a _ => by
    cases isPunct a <;> rfl
  rw [List.filter_congr hpred]

/-- C2: the slot allocator yields `[A, A + I, ...]` under an explicit
anchor A, and `[anchor + I, ..., anchor + N * I]` without one, where the
anchor is the greatest future scheduled time among pending/scheduled
queue items (the current time when there is none); on an empty queue at
time 0 with a 150-minute interval it yields [150, 300], and a subsequent
no-anchor call for one more video over the queue so produced yields
[450]. -/
theorem claim_C2 (now a interval : Int) (n : Nat) (q : List QueueItem) :
    allocateSlots now (some a) interval n q
      = (List.range n).map (fun i => a + interval * (i : Int)) ∧
    allocateSlots now none interval n q
      = (List.range n).map (fun i => get_last_scheduled_time now q + interval * ((i : Int) + 1)) ∧
    (futureSchedTimes now q = [] → get_last_scheduled_time now q = now) ∧
    (futureSchedTimes now q ≠ [] →
      get_last_scheduled_time now q ∈ futureSchedTimes now q ∧
      ∀ t ∈ futureSchedTimes now q, t ≤ get_last_scheduled_time now q) ∧
    (∀ t : Int, t ∈ futureSchedTimes now q ↔
      ∃ v ∈ q, v.sched = some t ∧ (v.status = .scheduled ∨ v.status = .pending) ∧ t > now) ∧
    allocateSlots 0 none 150 2 [] = [150, 300] ∧
    allocateSlots 0 none 150 1
      (add_videos_to_queue 0 none 150 [strCodes "A", strCodes "B"] []) = [450] := by
  refine ⟨?_, rfl, ?_, ?_, fun t => futureSchedTimes_mem_iff now t q, by decide, by decide⟩
  · unfold allocateSlots
    apply List.map_congr_left
    intro i _
    ring
  · intro h
    unfold get_last_scheduled_time
    rw [h]
  · intro h
    cases hf : futureSchedTimes now q with
    | nil => exact absurd hf h
    | cons x xs =>
      have hg : get_last_scheduled_time now q = listMax xs x := by
        unfold get_last_scheduled_time
        rw [hf]
      constructor
      · rw [hg]
        rcases listMax_mem xs x with h1 | h1
        · rw [h1]; exact List.mem_cons_self _ _
        · exact List.mem_cons_of_mem _ h1
      · intro t ht
        rw [hg]
        rcases List.mem_cons.mp ht with h1 | h1
        · rw [h1]; exact acc_le_listMax xs x
        · exact le_listMax_of_mem xs x t h1

theorem claim_C2_witness :
    get_last_scheduled_time 0 [] = 0 ∧ allocateSlots 0 (some 240) 150 2 [] = [240, 390] := by
  refine ⟨(claim_C2 0 240 150 2 []).2.2.1 rfl, ?_⟩
  rw [(claim_C2 0 240 150 2 []).1]
  decide

/-- C1 counterexample: a job requesting publish time now+4h (minute 240)
for two videos with a 2.5h (150-minute) interval gets the slots
[240, 390] — anchored at the requested time — in both the API path
(`_process_uploads`) and the custom-start path of `add_videos_to_queue`,
not the slots [150, 300] the claim expects. -/
theorem claim_C1_counterexample :
    processUploadsSlots 240 150 2 = [240, 390] ∧
    processUploadsSlots 240 150 2 ≠ [150, 300] ∧
    (add_videos_to_queue 0 (some 240) 150 [strCodes "A", strCodes "B"] []).map
      (fun v => v.sched) = [some 240, some 390] ∧
    (add_videos_to_queue 0 (some 240) 150 [strCodes "A", strCodes "B"] []).map
      (fun v => v.sched) ≠ [some 150, some 300] :=
  ⟨by decide, by decide, by decide, by decide⟩

/-- C1 (amended): submitting two distinct-titled videos with a target
publish time of now+4h (240 minutes) and a 150-minute interval yields
queue slots anchored at the raw requested time and spaced by the
interval: [now+240, now+390], in the custom-start path and in the
API-server upload path alike. -/
theorem claim_C1 (T : Int) (t1 t2 : Str)
    (h : normalize_like_api t1 ≠ normalize_like_api t2) :
    (add_videos_to_queue T (some (T + 240)) 150 [t1, t2] []).map (fun v => v.sched)
      = [some (T + 240), some (T + 390)] ∧
    processUploadsSlots (T + 240) 150 2 = [T + 240, T + 390] := by
  constructor
  · simp only [add_videos_to_queue, cleanQueue, existingTitles, List.filter_nil,
      List.map_nil, List.nil_append]
    rw [addLoop]
    simp only [List.not_mem_nil, if_false]
    rw [addLoop]
    rw [if_neg (by simpa using fun hh => h hh.symm)]
    rw [addLoop]
    simp only [mkPendingItem, List.map_cons, List.map_nil]
    norm_num
    all_goals ring
  · unfold processUploadsSlots
    norm_num [List.range_succ]
    all_goals ring

theorem claim_C1_witness :
    normalize_like_api (strCodes "A") ≠ normalize_like_api (strCodes "B") ∧
    (add_videos_to_queue 0 (some 240) 150 [strCodes "A", strCodes "B"] []).map
      (fun v => v.sched) = [some 240, some 390] := by
  have hd : normalize_like_api (strCodes "A") ≠ normalize_like_api (strCodes "B") := by decide
  refine ⟨hd, ?_⟩
  have h := (claim_C1 0 (strCodes "A") (strCodes "B") hd).1
  simpa using h

/-- C4 counterexample: the queue holds one permanently failed item
titled "F"; the code rejects a new candidate "F" as a duplicate
(`add_videos_to_queue` adds nothing), although the specification's rule
— match only items whose status is not a long-terminal failure — says
it should not be rejected. -/
theorem claim_C4_counterexample :
    (∀ v ∈ qFailedOnly, v.status = .failed) ∧
    isDuplicateCode 0 (strCodes "F") qFailedOnly = true ∧
    specIsDuplicate 0 (strCodes "F") qFailedOnly = false ∧
    add_videos_to_queue 0 none 150 [strCodes "F"] qFailedOnly = qFailedOnly := by
  decide

/-- C4 (amended): at enqueue time a candidate title is rejected as a
duplicate iff its normalized form equals the normalized title of some
item of the post-cleanup queue snapshot regardless of that item's
status — items in the permanent failure status block re-enqueue like
any other. -/
theorem claim_C4 (now interval : Int) (custom : Option Int) (cand : Str)
    (q : List QueueItem) :
    (add_videos_to_queue now custom interval [cand] q).length
      = (cleanQueue now q).length + (if isDuplicateCode now cand q then 0 else 1) ∧
    (isDuplicateCode now cand q = true ↔
      normalize_like_api cand ∈ existingTitles (cleanQueue now q)) := by
  constructor
  · simp only [add_videos_to_queue, List.length_append]
    by_cases hd : normalize_like_api cand ∈ existingTitles (cleanQueue now q)
    · have hb : isDuplicateCode now cand q = true := decide_eq_true hd
      rw [hb, if_pos rfl]
      simp only [addLoop, if_pos hd]
      rfl
    · have hb : isDuplicateCode now cand q = false := decide_eq_false hd
      rw [hb]
      simp only [addLoop, if_neg hd]
      simp
  · simp [isDuplicateCode]

/-- C5: the retry delay is looked up in the capped table [5,15,30,60,120]
(attempts=2 gives 30 minutes); a failed item below the attempt cap with a
recorded last attempt becomes pending again exactly when the delay has
elapsed, in which case its last-attempt time is set to now; a failed item
at or above the cap is left untouched by every retry pass. -/
theorem claim_C5 (now t : Int) (v : QueueItem) :
    delayFor 2 = 30 ∧
    (v.status = .failed → v.uploadAttempts < retryMaxRetries → v.lastAttemptTime = some t →
      (((retryStep now v).status = .pending) ↔ delayFor v.uploadAttempts * 60 ≤ now - t) ∧
      (delayFor v.uploadAttempts * 60 ≤ now - t →
        retryStep now v = { v with status := .pending, lastAttemptTime := some now }) ∧
      (now - t < delayFor v.uploadAttempts * 60 → retryStep now v = v)) ∧
    (v.status = .failed → retryMaxRetries ≤ v.uploadAttempts → retryStep now v = v) := by
  refine ⟨by decide, ?_, ?_⟩
  · intro hst hatt hlast
    have hstep : retryStep now v =
        if now - t < delayFor v.uploadAttempts * 60 then v
        else { v with status := .pending, lastAttemptTime := some now } := by
      unfold retryStep
      rw [if_pos hst, if_pos hatt]
      simp only [hlast]
    by_cases hc : now - t < delayFor v.uploadAttempts * 60
    · rw [hstep, if_pos hc]
      refine ⟨?_, ?_, fun _ => rfl⟩
      · constructor
        · intro hp
          rw [hst] at hp
          exact QStatus.noConfusion hp
        · intro hle
          exact absurd hc (not_lt.mpr hle)
      · intro hle
        exact absurd hc (not_lt.mpr hle)
    · rw [hstep, if_neg hc]
      refine ⟨?_, fun _ => rfl, ?_⟩
      · constructor
        · intro _
          exact le_of_not_lt hc
        · intro _
          rfl
      · intro h2
        exact absurd h2 hc
  · intro hst hge
    unfold retryStep
    rw [if_pos hst, if_neg (Nat.not_lt.mpr hge)]

theorem claim_C5_witness :
    delayFor 2 = 30 ∧
    retryStep 1800 exFailedItem
      = { exFailedItem with status := .pending, lastAttemptTime := some 1800 } := by
  refine ⟨(claim_C5 1800 0 exFailedItem).1, ?_⟩
  exact ((claim_C5 1800 0 exFailedItem).2.1 rfl (by decide) rfl).2.1 (by decide)

/-- C3 counterexample: `update_job_status` applied to a job in the
terminal status completed with a requested status of processing moves
the job out of the terminal status, contradicting the claim that no
update changes a terminal status. -/
theorem claim_C3_counterexample :
    isTerminal exCompletedJob.status = true ∧
    (update_job_status 7 [exCompletedJob] exCompletedJob.jobId exProcessingUpdate).2.map
      Job.status = [JStatus.processing] ∧
    JStatus.processing ≠ exCompletedJob.status := by
  decide

/-- C3 (amended): `update_job_status` applies the supplied status
unconditionally — a job in a terminal status is overwritten like any
other, so status can move out of terminal — while the second half of the
claim does hold: an update that enters a terminal status without an
explicit completion timestamp auto-stamps it with the current time, and
an explicit timestamp is kept verbatim. -/
theorem claim_C3 (now : Int) (u : UpdateArgs) (j : Job) :
    (applyUpdate now u j).status = u.status ∧
    (u.completedAt = none → isTerminal u.status = true →
      (applyUpdate now u j).completedAt = some now) ∧
    (∀ t0, u.completedAt = some t0 → (applyUpdate now u j).completedAt = some t0) := by
  refine ⟨rfl, ?_, ?_⟩
  · intro hn ht
    unfold applyUpdate
    simp only [hn, ht, if_true]
  · intro t0 htc
    unfold applyUpdate
    simp only [htc]

theorem claim_C3_witness :
    (applyUpdate 5 exFailUpdate exCompletedJob).status = JStatus.failed ∧
    (applyUpdate 5 exFailUpdate exCompletedJob).completedAt = some 5 := by
  refine ⟨(claim_C3 5 exFailUpdate exCompletedJob).1, ?_⟩
  exact (claim_C3 5 exFailUpdate exCompletedJob).2.1 rfl (by decide)

/-- C7 counterexample: on an unknown job id, `get_job` does return the
explicit not-found value, but `update_job_status` returns True (success)
rather than an explicit failure, and silently changes nothing. -/
theorem claim_C7_counterexample :
    get_job [] (strCodes "nope") = none ∧
    update_job_status 0 [] (strCodes "nope") exProcessingUpdate = (true, []) :=
  ⟨rfl, rfl⟩

/-- C7 (amended): for a job id not present in the store, `get_job`
returns the explicit not-found value; `update_job_status` reports
success (True) and leaves every row unchanged — it does not return an
explicit failure on an unknown id. -/
theorem claim_C7 (now : Int) (db : List Job) (jid : Str) (u : UpdateArgs)
    (h : ∀ j ∈ db, j.jobId ≠ jid) :
    get_job db jid = none ∧ update_job_status now db jid u = (true, db) := by
  constructor
  · unfold get_job
    apply List.find?_eq_none.mpr
    intro j hj
    simp [h j hj]
  · unfold update_job_status
    have hmap : db.map (fun j => if j.jobId = jid then applyUpdate now u j else j) = db := by
      have hc : ∀ j ∈ db, (if j.jobId = jid then applyUpdate now u j else j) = j := by
        intro j hj
        exact if_neg (h j hj)
      rw [List.map_congr_left hc]
      exact List.map_id' db
    rw [hmap]

theorem claim_C7_witness :
    get_job [exCompletedJob] (strCodes "nope") = none ∧
    update_job_status 0 [exCompletedJob] (strCodes "nope") exProcessingUpdate
      = (true, [exCompletedJob]) :=
  claim_C7 0 [exCompletedJob] (strCodes "nope") exProcessingUpdate (by decide)

/-- C8 counterexample: a queue holding one item with datetime-valued
fields (added_at, scheduled_publish_time) does not survive a
save-then-load round trip unchanged: the datetimes come back as
strings. -/
theorem claim_C8_counterexample : saveThenLoad [exDtItem] ≠ [exDtItem] := by decide

/-- C8 (amended): the save-then-load round trip preserves the item
count, the order and the field keys of every item; an item whose field
values are all JSON-representable is restored identically, but
datetime-valued fields come back as their string rendering, so a queue
containing datetimes is not restored with the same field values. -/
theorem claim_C8 (q : List JsonItem) :
    (saveThenLoad q).length = q.length ∧
    (saveThenLoad q).map (fun it => it.map Prod.fst) = q.map (fun it => it.map Prod.fst) ∧
    ((∀ it ∈ q, ∀ kv ∈ it, isJsonVal kv.2 = true) → saveThenLoad q = q) := by
  refine ⟨List.length_map q dumpItem, ?_, ?_⟩
  · unfold saveThenLoad
    rw [List.map_map]
    apply List.map_congr_left
    intro it _
    unfold dumpItem
    simp only [Function.comp]
    rw [List.map_map]
    apply List.map_congr_left
    intro kv _
    rfl
  · intro h
    unfold saveThenLoad
    have hitems : ∀ it ∈ q, dumpItem it = it := by
      intro it hit
      unfold dumpItem
      have hkv : ∀ kv ∈ it, (fun kv : Str × FVal => (kv.1, dumpVal kv.2)) kv = kv := by
        intro kv hkv
        have hv := h it hit kv hkv
        cases kv with
        | mk k v =>
          cases v with
          | fdt t => simp [isJsonVal] at hv
          | fstr s => rfl
          | fint n => rfl
          | flistStr l => rfl
      rw [List.map_congr_left hkv]
      exact List.map_id' it
    rw [List.map_congr_left hitems]
    exact List.map_id' q

theorem claim_C8_witness : saveThenLoad [exPrimItem] = [exPrimItem] :=
  (claim_C8 [exPrimItem]).2.2 (by decide)

theorem get_job_update (now : Int) (db : List Job) (jid : Str) (u : UpdateArgs) :
    get_job (update_job_status now db jid u).2 jid = (get_job db jid).map (applyUpdate now u) := by
  unfold update_job_status get_job
  induction db with
  | nil => rfl
  | cons j rest ih =>
    by_cases hj : j.jobId = jid
    · simp only [List.map_cons]
      rw [if_pos hj]
      have hid : (applyUpdate now u j).jobId = j.jobId := rfl
      rw [List.find?_cons_of_pos _ (by simp [hid, hj]),
        List.find?_cons_of_pos _ (by simp [hj])]
      rfl
    · simp only [List.map_cons]
      rw [if_neg hj]
      rw [List.find?_cons_of_neg _ (by simp [hj]),
        List.find?_cons_of_neg _ (by simp [hj])]
      exact ih

/-- C9: given the authenticated owner, cancellation succeeds iff the
job's status is queued or processing (equivalently, non-terminal), in
which case the job's stored status becomes cancelled; a job already in a
terminal status yields the explicit cannot-cancel error and the store is
left unchanged. -/
theorem claim_C9 (now : Int) (db : List Job) (jid key : Str) (job : Job)
    (hfound : get_job db jid = some job) (hkey : job.apiKey = key) :
    (isTerminal job.status = false ↔ (job.status = .queued ∨ job.status = .processing)) ∧
    ((cancel_job now db jid key).1 = .success ↔
      (job.status = .queued ∨ job.status = .processing)) ∧
    (isTerminal job.status = true →
      cancel_job now db jid key = (.cannotCancel job.status, db)) ∧
    (isTerminal job.status = false →
      (get_job (cancel_job now db jid key).2 jid).map Job.status = some .cancelled) := by
  have hniff : isTerminal job.status = false ↔
      (job.status = .queued ∨ job.status = .processing) := by
    cases hs : job.status <;> simp [isTerminal, hs]
  refine ⟨hniff, ?_, ?_, ?_⟩
  · by_cases ht : isTerminal job.status = true
    · have hcc : (cancel_job now db jid key).1 = .cannotCancel job.status := by
        simp [cancel_job, hfound, hkey, ht]
      rw [hcc]
      constructor
      · intro habs
        exact absurd habs (by simp)
      · intro hqp
        have := hniff.mpr hqp
        rw [ht] at this
        cases this
    · have hf2 : isTerminal job.status = false := by simpa using ht
      have hsucc : (cancel_job now db jid key).1 = .success := by
        simp [cancel_job, hfound, hkey, hf2]
      rw [hsucc]
      constructor
      · intro _
        exact hniff.mp hf2
      · intro _
        rfl
  · intro ht
    simp [cancel_job, hfound, hkey, ht]
  · intro ht
    have hsnd : (cancel_job now db jid key).2 =
        (update_job_status now db jid
          { status := .cancelled
            progress := 0
            message := cancelledByUserMsg
            error := none
            videosGenerated := none
            videosUploaded := none
            completedAt := none }).2 := by
      simp [cancel_job, hfound, hkey, ht]
    rw [hsnd, get_job_update, hfound]
    rfl

theorem claim_C9_witness :
    ((cancel_job 3 [exQueuedJob] exQueuedJob.jobId exQueuedJob.apiKey).1
      = CancelResult.success) ∧
    (get_job (cancel_job 3 [exQueuedJob] exQueuedJob.jobId exQueuedJob.apiKey).2
      exQueuedJob.jobId).map Job.status = some JStatus.cancelled := by
  have h := claim_C9 3 [exQueuedJob] exQueuedJob.jobId exQueuedJob.apiKey exQueuedJob
    (by decide) rfl
  exact ⟨h.2.1.mpr (Or.inl rfl), h.2.2.2 rfl⟩

/-- C10: during an upload pass, a pending item whose video file does not
exist is marked failed with error "File not found", its attempt counter
is not incremented, and the pass goes on to process the remaining items
exactly as it would have. -/
theorem claim_C10 (env : UploadEnv) (v : QueueItem) (rest : List QueueItem)
    (hv : v.status = .pending) (hf : env.fileExists v.videoPath = false) :
    (uploadStep env v).status = .failed ∧
    (uploadStep env v).error = some fileNotFoundError ∧
    (uploadStep env v).uploadAttempts = v.uploadAttempts ∧
    upload_pending_videos env (v :: rest)
      = uploadStep env v :: upload_pending_videos env rest := by
  have hstep : uploadStep env v = { v with status := .failed, error := some fileNotFoundError } := by
    unfold uploadStep
    rw [if_pos hf]
  refine ⟨by rw [hstep], by rw [hstep], by rw [hstep], ?_⟩
  unfold upload_pending_videos
  rw [List.map_cons, if_pos hv]

theorem claim_C10_witness :
    (uploadStep exMissingEnv exPendingItem).status = QStatus.failed ∧
    (uploadStep exMissingEnv exPendingItem).error = some fileNotFoundError ∧
    (uploadStep exMissingEnv exPendingItem).uploadAttempts = exPendingItem.uploadAttempts ∧
    upload_pending_videos exMissingEnv [exPendingItem]
      = [uploadStep exMissingEnv exPendingItem] :=
  claim_C10 exMissingEnv exPendingItem [] rfl rfl
